import Mathlib

/-!
Shallow embedding of the NBA statistics harvester (nba_scraper.py).

The embedding follows the source file function by function:
* `get_stat_url` models the URL construction with the stat-type map and
  its silent default segment.
* `save_filename` / `save_to_csv` model the CSV persistence naming and the
  try/except around the write.
* `scrape_body` / `scrape_nba_stats` model the fetch-and-extract function,
  with the surrounding try/except modelled as a catch of `PyResult.exn`.
* `multiLoop` / `scrape_multiple_seasons` model the multi-season loop,
  recording an event trace (delays, fetches, file writes) and the results
  dictionary.
* `mainRun` models the `main` entry point including its validation of the
  year range and of the mode combination.
-/

namespace NbaScraper

/-- The five stat types accepted by the argument parser (argparse choices). -/
def validStatTypes : List String :=
  ["per_game", "totals", "per_36min", "per_100poss", "advanced"]

/-- Embeds the Python dict lookup stat_type_map.get(stat_type, the per_game
default) from get_stat_url. -/
def statTypeMapGet (s : String) : String :=
  if s = "per_game" then "per_game"
  else if s = "totals" then "totals"
  else if s = "per_36min" then "per_minute"
  else if s = "per_100poss" then "per_poss"
  else if s = "advanced" then "advanced"
  else "per_game"

/-- Embeds get_stat_url from nba_scraper.py: builds the resource locator
string for a season end year and stat type. -/
def get_stat_url (season_end_year : Int) (stat_type : String) : String :=
  "https://www.basketball-reference.com/leagues/NBA_" ++ toString season_end_year
    ++ "_" ++ statTypeMapGet stat_type ++ ".html"

/-- Python string slice s[-2:]: the last two characters, or the whole
string when it is shorter than two characters. -/
def pyLastTwo (s : String) : String :=
  String.mk (s.data.drop (s.data.length - 2))

/-- Embeds the filename f-string of save_to_csv from nba_scraper.py. -/
def save_filename (season_end_year : Int) (stat_type : String) : String :=
  "nba_player_stats_" ++ toString (season_end_year - 1) ++ "_"
    ++ pyLastTwo (toString season_end_year) ++ "_" ++ stat_type ++ ".csv"

/-- Modelled from the spec: the filename formula of section 4.6, using the
last two decimal digits of the season end year (zero padded). -/
def twoDigitStr (n : Nat) : String :=
  (if n < 10 then "0" else "") ++ toString n

/-- Modelled from the spec: deterministic output name
nba_player_stats_ (seasonEndYear-1) _ (last-two-digits) _ (statType) .csv. -/
def specFilename (season_end_year : Int) (stat_type : String) : String :=
  "nba_player_stats_" ++ toString (season_end_year - 1) ++ "_"
    ++ twoDigitStr (season_end_year % 100).toNat ++ "_" ++ stat_type ++ ".csv"

theorem lastTwo_bounded :
    ∀ m, m < 76 → pyLastTwo (Nat.repr (1950 + m)) = twoDigitStr ((1950 + m) % 100) := by
  decide

theorem toString_intOfNat (n : Nat) : toString ((n : Nat) : Int) = Nat.repr n := rfl

/-- C4: for every season end year in the valid range and every stat type in
the five member enum, the persisted file name matches the spec formula
nba_player_stats_ (year minus one) _ (last two digits of year) _ stattype
.csv; in particular the 2024 per_game file is named
nba_player_stats_2023_24_per_game.csv. -/
theorem C4_filename_contract :
    (∀ (y : Int) (st : String), 1950 ≤ y → y ≤ 2025 → st ∈ validStatTypes →
      save_filename y st = specFilename y st) ∧
    save_filename 2024 "per_game" = "nba_player_stats_2023_24_per_game.csv" := by
  constructor
  · intro y st h1 h2 _hst
    obtain ⟨m, hm, rfl⟩ : ∃ m : Nat, m < 76 ∧ y = ((1950 + m : Nat) : Int) :=
      ⟨(y - 1950).toNat, by omega, by omega⟩
    have hmod : (((1950 + m : Nat) : Int) % 100).toNat = (1950 + m) % 100 := by omega
    unfold save_filename specFilename
    rw [hmod, toString_intOfNat, lastTwo_bounded m hm]
  · rfl

theorem C4_filename_contract_witness :
    (1950 : Int) ≤ 2024 ∧ (2024 : Int) ≤ 2025 ∧ "per_game" ∈ validStatTypes ∧
    save_filename 2024 "per_game" = specFilename 2024 "per_game" :=
  ⟨by decide, by decide, by decide,
   C4_filename_contract.1 2024 "per_game" (by decide) (by decide) (by decide)⟩

/-- C5 counterexample: for a stat type outside the enum the planner does not
fail; it silently produces the per_game resource locator (the dict lookup
has a default). The string bogus is outside the enum yet get_stat_url
returns a locator. -/
theorem C5_invalid_stattype_counterexample :
    "bogus" ∉ validStatTypes ∧
    get_stat_url 2024 "bogus" =
      "https://www.basketball-reference.com/leagues/NBA_2024_per_game.html" := by
  exact ⟨by decide, rfl⟩

/-- C5 amended: for every stat type outside the five member enum,
get_stat_url falls back to the per_game segment and produces the same
resource locator as for per_game, rather than failing. -/
theorem C5_fallback_to_per_game (y : Int) (st : String) (h : st ∉ validStatTypes) :
    get_stat_url y st = get_stat_url y "per_game" := by
  simp only [validStatTypes, List.mem_cons, List.mem_singleton, not_or] at h
  obtain ⟨h1, h2, h3, h4, h5, -⟩ := h
  simp [get_stat_url, statTypeMapGet, h1, h2, h3, h4, h5]

theorem C5_fallback_to_per_game_witness :
    "weird" ∉ validStatTypes ∧
    get_stat_url 2030 "weird" = get_stat_url 2030 "per_game" :=
  ⟨by decide, C5_fallback_to_per_game 2030 "weird" (by decide)⟩

/-- One row of the HTML table body: whether the row carries the thead class
(a repeated sub-header) and the trimmed cell texts in document order. -/
structure HtmlRow where
  isThead : Bool
  cells : List String
deriving DecidableEq, Repr

/-- The HTML table found by id on the page: the trimmed th texts of its
thead (none when the thead element is absent) and its body rows. -/
structure HtmlTable where
  thead : Option (List String)
  bodyRows : List HtmlRow
deriving DecidableEq, Repr

/-- The fetched page: the table with the expected id, when present. -/
structure Page where
  table : Option HtmlTable
deriving DecidableEq, Repr

/-- Outcome of requests.get: a raised transport error, or a response with a
status code and a parsed page. -/
inductive FetchResult
  | transportError (msg : String)
  | httpResponse (status : Nat) (page : Page)
deriving DecidableEq, Repr

/-- The extracted table: header names and data rows; a none entry models a
pandas NaN introduced by padding a short row. -/
structure StatTable where
  headers : List String
  rows : List (List (Option String))
deriving DecidableEq, Repr

/-- Result of running a piece of Python code: a value, or a raised
exception carrying a message. -/
inductive PyResult (α : Type)
  | ok (a : α)
  | exn (msg : String)
deriving DecidableEq, Repr

/-- Width inferred by pandas for a list of record rows: the maximum row
length. -/
def rowsWidth (rows : List (List String)) : Nat :=
  rows.foldr (fun r acc => max r.length acc) 0

/-- Embeds the pandas DataFrame constructor on a list of record rows with
explicit column names: an empty list yields an empty frame; otherwise rows
shorter than the maximum length are padded with NaN, and a ValueError is
raised when the column count differs from the inferred width. -/
def pdDataFrame (rows : List (List String)) (headers : List String) :
    Except String StatTable :=
  match rows with
  | [] => Except.ok ⟨headers, []⟩
  | _ :: _ =>
    if rowsWidth rows = headers.length then
      Except.ok ⟨headers,
        rows.map (fun r => r.map some ++ List.replicate (headers.length - r.length) none)⟩
    else Except.error "columns passed do not match data width"

/-- The header list built by scrape_nba_stats: th texts of the thead,
keeping only the non-empty ones. -/
def headersOf (ths : List String) : List String :=
  ths.filter (fun c => c != "")

/-- The candidate data rows built by scrape_nba_stats: body rows without
the thead class, keeping only those with more than one cell. -/
def tableRows (t : HtmlTable) : List (List String) :=
  ((t.bodyRows.filter (fun r => !r.isThead)).map HtmlRow.cells).filter
    (fun r => decide (1 < r.length))

/-- The body of scrape_nba_stats before its try/except: requests.get may
raise, a non-200 status or a missing table returns None, a missing thead
raises, and the DataFrame construction may raise. -/
def scrape_body (fr : FetchResult) : PyResult (Option StatTable) :=
  match fr with
  | FetchResult.transportError msg => PyResult.exn msg
  | FetchResult.httpResponse status page =>
    if status = 200 then
      match page.table with
      | none => PyResult.ok none
      | some t =>
        match t.thead with
        | none => PyResult.exn "AttributeError: NoneType has no attribute find_all"
        | some ths =>
          match pdDataFrame (tableRows t) (headersOf ths) with
          | Except.ok tbl => PyResult.ok (some tbl)
          | Except.error e => PyResult.exn e
    else PyResult.ok none

/-- Embeds scrape_nba_stats from nba_scraper.py: the body above wrapped in
the try/except that turns any raised exception into None. -/
def scrape_nba_stats (fr : FetchResult) : Option StatTable :=
  match scrape_body fr with
  | PyResult.ok r => r
  | PyResult.exn _ => none

theorem mem_le_rowsWidth {rows : List (List String)} {r : List String}
    (h : r ∈ rows) : r.length ≤ rowsWidth rows := by
  induction rows with
  | nil => cases h
  | cons a l ih =>
    rcases List.mem_cons.mp h with rfl | h2
    · exact le_max_left _ _
    · exact le_trans (ih h2) (le_max_right _ _)

theorem pdDataFrame_ok_spec {rows : List (List String)} {headers : List String}
    {tbl : StatTable} (h : pdDataFrame rows headers = Except.ok tbl) :
    tbl.headers = headers ∧ tbl.rows.length = rows.length ∧
    ∀ r ∈ tbl.rows, r.length = headers.length := by
  cases rows with
  | nil =>
    simp only [pdDataFrame, Except.ok.injEq] at h
    subst h
    simp
  | cons a l =>
    by_cases hw : rowsWidth (a :: l) = headers.length
    · simp only [pdDataFrame, if_pos hw, Except.ok.injEq] at h
      subst h
      refine ⟨rfl, by simp, ?_⟩
      intro r hr
      simp only [List.mem_map] at hr
      obtain ⟨r0, hr0, rfl⟩ := hr
      have hle : r0.length ≤ headers.length := hw ▸ mem_le_rowsWidth hr0
      simp only [List.length_append, List.length_map, List.length_replicate]
      omega
    · simp only [pdDataFrame, if_neg hw] at h
      cases h

theorem scrape_some_inv {fr : FetchResult} {tb : StatTable}
    (h : scrape_nba_stats fr = some tb) :
    ∃ t ths, fr = FetchResult.httpResponse 200 ⟨some t⟩ ∧ t.thead = some ths ∧
      pdDataFrame (tableRows t) (headersOf ths) = Except.ok tb := by
  cases fr with
  | transportError msg => simp [scrape_nba_stats, scrape_body] at h
  | httpResponse status page =>
    by_cases hs : status = 200
    · subst hs
      cases page with
      | mk pt =>
        cases pt with
        | none => simp [scrape_nba_stats, scrape_body] at h
        | some t =>
          cases hth : t.thead with
          | none => simp [scrape_nba_stats, scrape_body, hth] at h
          | some ths =>
            refine ⟨t, ths, rfl, hth, ?_⟩
            cases hdf : pdDataFrame (tableRows t) (headersOf ths) with
            | error e => simp [scrape_nba_stats, scrape_body, hth, hdf] at h
            | ok tbl =>
              have hval : scrape_nba_stats (FetchResult.httpResponse 200 ⟨some t⟩) =
                  some tbl := by
                simp [scrape_nba_stats, scrape_body, hth, hdf]
              rw [hval] at h
              simp only [Option.some.injEq] at h
              rw [h]
    · simp [scrape_nba_stats, scrape_body, hs] at h

/-- A concrete malformed page: headers of length two, one body row of
length three. -/
def badTable : HtmlTable := ⟨some ["A", "B"], [⟨false, ["x", "y", "z"]⟩]⟩

/-- The fetch outcome delivering the malformed page with status 200. -/
def badFetch : FetchResult := FetchResult.httpResponse 200 ⟨some badTable⟩

/-- C3 counterexample: on a page whose single surviving body row is longer
than the header, the code does not drop the mismatching row and return a
table; the DataFrame construction raises, the exception is swallowed, and
the whole extraction returns None, an error for the season. -/
theorem C3_mismatch_counterexample :
    tableRows badTable = [["x", "y", "z"]] ∧
    (headersOf ["A", "B"]).length = 2 ∧
    scrape_nba_stats badFetch = none := by
  exact ⟨rfl, rfl, rfl⟩

/-- C3 amended: extraction drops exactly the rows with at most one cell;
if the surviving rows are non-empty and their maximum length differs from
the header length, the extraction fails for the season (returns None)
instead of dropping the mismatching rows; otherwise it returns a table in
which shorter rows are padded with missing values, every row has the
header length, and the output row count equals the surviving row count. -/
theorem C3_row_handling (t : HtmlTable) (ths : List String)
    (hth : t.thead = some ths) :
    (tableRows t ≠ [] → rowsWidth (tableRows t) ≠ (headersOf ths).length →
      scrape_nba_stats (FetchResult.httpResponse 200 ⟨some t⟩) = none) ∧
    (tableRows t = [] ∨ rowsWidth (tableRows t) = (headersOf ths).length →
      scrape_nba_stats (FetchResult.httpResponse 200 ⟨some t⟩) =
        some ⟨headersOf ths,
          (tableRows t).map (fun r =>
            r.map some ++ List.replicate ((headersOf ths).length - r.length) none)⟩) ∧
    (∀ tb, scrape_nba_stats (FetchResult.httpResponse 200 ⟨some t⟩) = some tb →
      (∀ r ∈ tb.rows, r.length = tb.headers.length) ∧
      tb.rows.length = (tableRows t).length) := by
  have hbody : scrape_body (FetchResult.httpResponse 200 ⟨some t⟩) =
      match pdDataFrame (tableRows t) (headersOf ths) with
      | Except.ok tbl => PyResult.ok (some tbl)
      | Except.error e => PyResult.exn e := by
    simp [scrape_body, hth]
  refine ⟨?_, ?_, ?_⟩
  · intro hne hw
    cases hrows : tableRows t with
    | nil => exact absurd hrows hne
    | cons a l =>
      unfold scrape_nba_stats
      rw [hbody, hrows]
      unfold pdDataFrame
      rw [hrows] at hw
      simp [if_neg hw]
  · intro hcase
    unfold scrape_nba_stats
    rw [hbody]
    cases hrows : tableRows t with
    | nil => simp [pdDataFrame, hrows]
    | cons a l =>
      rcases hcase with hnil | hw
      · rw [hrows] at hnil; cases hnil
      · rw [hrows] at hw
        simp [pdDataFrame, if_pos hw, hrows]
  · intro tb htb
    obtain ⟨t0, ths0, heq, hth0, hdf⟩ := scrape_some_inv htb
    have ht0 : t0 = t := by
      injection heq with h1 h2
      injection h2 with h3
      exact (Option.some.inj h3).symm
    subst ht0
    have hths : ths0 = ths := by
      rw [hth] at hth0
      exact (Option.some.inj hth0).symm
    subst hths
    obtain ⟨hh, hlen, hwf⟩ := pdDataFrame_ok_spec hdf
    exact ⟨fun r hr => by rw [hh]; exact hwf r hr, hlen⟩

/-- A concrete well formed page used to instantiate the C3 amended
theorem: one good row, one single-cell row (dropped), one repeated
sub-header row (dropped). -/
def goodTable : HtmlTable :=
  ⟨some ["A", "B"], [⟨false, ["p", "q"]⟩, ⟨false, ["solo"]⟩, ⟨true, ["x", "y"]⟩]⟩

theorem C3_row_handling_witness :
    scrape_nba_stats (FetchResult.httpResponse 200 ⟨some goodTable⟩) =
      some ⟨["A", "B"], [[some "p", some "q"]]⟩ := by
  have h := (C3_row_handling goodTable ["A", "B"] rfl).2.1 (Or.inr (by decide))
  simpa using h

/-- C9: the combined fetch-and-extract operation never propagates an
exception: whenever its body raises, the wrapper returns None, and in every
case the wrapper returns either None or a well formed table whose rows all
have the header length. -/
theorem C9_no_uncaught_exception (fr : FetchResult) :
    (∀ msg, scrape_body fr = PyResult.exn msg → scrape_nba_stats fr = none) ∧
    (scrape_nba_stats fr = none ∨
      ∃ tb, scrape_nba_stats fr = some tb ∧
        ∀ r ∈ tb.rows, r.length = tb.headers.length) := by
  constructor
  · intro msg hmsg
    unfold scrape_nba_stats
    rw [hmsg]
  · cases hres : scrape_nba_stats fr with
    | none => exact Or.inl rfl
    | some tb =>
      right
      obtain ⟨t, ths, -, -, hdf⟩ := scrape_some_inv hres
      obtain ⟨hh, -, hwf⟩ := pdDataFrame_ok_spec hdf
      exact ⟨tb, rfl, fun r hr => by rw [hh]; exact hwf r hr⟩

theorem C9_no_uncaught_exception_witness :
    scrape_nba_stats (FetchResult.transportError "boom") = none ∧
    (scrape_nba_stats badFetch = none ∨
      ∃ tb, scrape_nba_stats badFetch = some tb ∧
        ∀ r ∈ tb.rows, r.length = tb.headers.length) :=
  ⟨(C9_no_uncaught_exception (FetchResult.transportError "boom")).1 "boom" rfl,
   (C9_no_uncaught_exception badFetch).2⟩

/-- The ambient effects the scraper script interacts with: the stream of
random.random() draws, the network (a fetch outcome per season and stat
type), and whether a given to_csv write succeeds. -/
structure Env where
  draws : Nat → ℚ
  fetch : Int → String → FetchResult
  saveOk : Int → String → Bool

/-- Observable events of a run: the two kinds of sleep, the network call,
and a successful file write. -/
inductive Event
  | preFetchDelay (d : ℚ)
  | fetchCall (year : Int) (stat : String)
  | saveFile (name : String)
  | seasonDelay (d : ℚ)
deriving DecidableEq, Repr

/-- Embeds save_to_csv from nba_scraper.py: computes the filename and
attempts the write inside a try/except, returning the filename on success
and None when to_csv raises. -/
def save_to_csv (env : Env) (_df : StatTable) (year : Int) (st : String) :
    Option String :=
  if env.saveOk year st then some (save_filename year st) else none

/-- One season inside the multi-season loop: scrape, then save when a
frame was produced; the filename when both steps succeed. -/
def seasonSuccessFile (env : Env) (st : String) (year : Int) : Option String :=
  match scrape_nba_stats (env.fetch year st) with
  | some df => save_to_csv env df year st
  | none => none

/-- The file write events of one season. -/
def saveEvents : Option String → List Event
  | some fn => [Event.saveFile fn]
  | none => []

/-- The results dictionary entry of one season: present only on success. -/
def resEntry (year : Int) : Option String → List (Int × String)
  | some fn => [(year, fn)]
  | none => []

/-- Outcome of a multi-season run: the event trace, the next unused random
draw index, the results dictionary (insertion ordered), and the per-season
console summary (year paired with success). -/
structure MultiRun where
  trace : List Event
  drawIx : Nat
  results : List (Int × String)
  outcomes : List (Int × Bool)

/-- Embeds the loop body of scrape_multiple_seasons: for each year, a
pre-fetch delay of 1 + 2 * random(), the fetch and extraction, the save on
success, and an unconditional season delay of 3 + 2 * random(). -/
def multiLoop (env : Env) (st : String) : List Int → Nat → MultiRun
  | [], i => ⟨[], i, [], []⟩
  | year :: rest, i =>
    let d1 : ℚ := 1 + 2 * env.draws i
    let fileOpt := seasonSuccessFile env st year
    let d2 : ℚ := 3 + 2 * env.draws (i + 1)
    let r := multiLoop env st rest (i + 2)
    ⟨Event.preFetchDelay d1 :: Event.fetchCall year st ::
        (saveEvents fileOpt ++ Event.seasonDelay d2 :: r.trace),
      r.drawIx, resEntry year fileOpt ++ r.results, (year, fileOpt.isSome) :: r.outcomes⟩

/-- Python range(s, e + 1) over integers. -/
def pyRange (s e : Int) : List Int :=
  (List.range (e + 1 - s).toNat).map (fun (k : Nat) => s + (k : Int))

/-- Embeds scrape_multiple_seasons from nba_scraper.py. -/
def scrape_multiple_seasons (env : Env) (s e : Int) (st : String) : MultiRun :=
  multiLoop env st (pyRange s e) 0

/-- Result reported by main. -/
inductive MainResult
  | invalidArgsMsg (msg : String)
  | multiDone (results : List (Int × String))
  | singleFail
  | singleNoSave
  | singleDone (file : String)
deriving DecidableEq, Repr

/-- The single-season path of main: one scrape, then save; events as in the
loop but with no season delay. -/
def singleSeasonRun (env : Env) (year : Int) (st : String) :
    List Event × MainResult :=
  let d1 : ℚ := 1 + 2 * env.draws 0
  let evs := [Event.preFetchDelay d1, Event.fetchCall year st]
  match scrape_nba_stats (env.fetch year st) with
  | none => (evs, MainResult.singleFail)
  | some df =>
    match save_to_csv env df year st with
    | none => (evs, MainResult.singleNoSave)
    | some fn => (evs ++ [Event.saveFile fn], MainResult.singleDone fn)

/-- The parsed command line arguments consumed by main. -/
structure Args where
  multi : Bool
  start_year : Option Int
  end_year : Option Int
  season_end_year : Int
  stat_type : String

/-- Python truthiness of an optional integer argument: None and 0 are
falsy. -/
def truthy : Option Int → Bool
  | none => false
  | some n => n != 0

/-- Embeds main from nba_scraper.py: mode dispatch, the mode-combination
check, the year-range and season-year validation, then the corresponding
run. Every path returns normally, so the wrapper value is always ok. -/
def mainRun (env : Env) (a : Args) : List Event × PyResult MainResult :=
  if a.multi = true then
    if truthy a.start_year = true ∧ truthy a.end_year = true then
      if a.start_year.getD 0 < 1950 ∨ 2025 < a.end_year.getD 0 ∨
          a.end_year.getD 0 < a.start_year.getD 0 then
        ([], PyResult.ok (MainResult.invalidArgsMsg "Hata: Gecersiz yil araligi."))
      else
        let r := scrape_multiple_seasons env (a.start_year.getD 0) (a.end_year.getD 0)
          a.stat_type
        (r.trace, PyResult.ok (MainResult.multiDone r.results))
    else
      ([], PyResult.ok (MainResult.invalidArgsMsg
        "Hata: multi modu icin start ve end parametrelerini belirtin."))
  else
    if a.season_end_year < 1950 ∨ 2025 < a.season_end_year then
      ([], PyResult.ok (MainResult.invalidArgsMsg "Hata: Gecersiz sezon yili."))
    else
      let p := singleSeasonRun env a.season_end_year a.stat_type
      (p.1, PyResult.ok p.2)

/-- Exit status of the Python process: zero when main returned normally,
nonzero only for an uncaught exception. -/
def exitStatus {α : Type} : PyResult α → Nat
  | PyResult.ok _ => 0
  | PyResult.exn _ => 1

def isFetchB : Event → Bool
  | Event.fetchCall _ _ => true
  | _ => false

def isSaveB : Event → Bool
  | Event.saveFile _ => true
  | _ => false

def isSeasonDelayB : Event → Bool
  | Event.seasonDelay _ => true
  | _ => false

/-- Number of network fetch calls in a trace. -/
def fetchCount (evs : List Event) : Nat := evs.countP isFetchB

/-- Number of successful file writes in a trace. -/
def saveCount (evs : List Event) : Nat := evs.countP isSaveB

/-- The season years fetched, in trace order. -/
def fetchedYears (evs : List Event) : List Int :=
  evs.filterMap (fun ev => match ev with
    | Event.fetchCall y _ => some y
    | _ => none)

/-- Timestamps of the fetch calls in a trace, on a clock advanced by every
delay event. -/
def fetchTimesAux : List Event → ℚ → List ℚ
  | [], _ => []
  | Event.fetchCall _ _ :: rest, t => t :: fetchTimesAux rest t
  | Event.preFetchDelay d :: rest, t => fetchTimesAux rest (t + d)
  | Event.saveFile _ :: rest, t => fetchTimesAux rest t
  | Event.seasonDelay d :: rest, t => fetchTimesAux rest (t + d)

def fetchTimes (evs : List Event) : List ℚ := fetchTimesAux evs 0

/-- Successive elements are at least gap apart. -/
def spacedBy (gap : ℚ) : List ℚ → Prop
  | [] => True
  | [_] => True
  | a :: b :: rest => a + gap ≤ b ∧ spacedBy gap (b :: rest)

/-- The configured delay ranges: 1 to 3 time units before a fetch, 3 to 5
between seasons. -/
def delayWithin : Event → Prop
  | Event.preFetchDelay d => 1 ≤ d ∧ d < 3
  | Event.seasonDelay d => 3 ≤ d ∧ d < 5
  | _ => True

theorem multiLoop_nil (env : Env) (st : String) (i : Nat) :
    multiLoop env st [] i = ⟨[], i, [], []⟩ := rfl

theorem multiLoop_cons (env : Env) (st : String) (y : Int) (ys : List Int) (i : Nat) :
    multiLoop env st (y :: ys) i =
      ⟨Event.preFetchDelay (1 + 2 * env.draws i) :: Event.fetchCall y st ::
          (saveEvents (seasonSuccessFile env st y) ++
            Event.seasonDelay (3 + 2 * env.draws (i + 1)) ::
              (multiLoop env st ys (i + 2)).trace),
        (multiLoop env st ys (i + 2)).drawIx,
        resEntry y (seasonSuccessFile env st y) ++ (multiLoop env st ys (i + 2)).results,
        (y, (seasonSuccessFile env st y).isSome) :: (multiLoop env st ys (i + 2)).outcomes⟩ :=
  rfl

@[simp] theorem fetchedYears_nil : fetchedYears [] = [] := rfl

@[simp] theorem fetchedYears_pre (d : ℚ) (l : List Event) :
    fetchedYears (Event.preFetchDelay d :: l) = fetchedYears l := rfl

@[simp] theorem fetchedYears_fetch (y : Int) (s : String) (l : List Event) :
    fetchedYears (Event.fetchCall y s :: l) = y :: fetchedYears l := rfl

@[simp] theorem fetchedYears_save (fn : String) (l : List Event) :
    fetchedYears (Event.saveFile fn :: l) = fetchedYears l := rfl

@[simp] theorem fetchedYears_sd (d : ℚ) (l : List Event) :
    fetchedYears (Event.seasonDelay d :: l) = fetchedYears l := rfl

@[simp] theorem fetchedYears_append (l₁ l₂ : List Event) :
    fetchedYears (l₁ ++ l₂) = fetchedYears l₁ ++ fetchedYears l₂ := by
  simp [fetchedYears, List.filterMap_append]

@[simp] theorem fetchedYears_saveEvents (f : Option String) :
    fetchedYears (saveEvents f) = [] := by
  cases f <;> rfl

theorem multiLoop_fetchedYears (env : Env) (st : String) :
    ∀ (years : List Int) (i : Nat),
      fetchedYears (multiLoop env st years i).trace = years := by
  intro years
  induction years with
  | nil => intro i; rfl
  | cons y ys ih =>
    intro i
    rw [multiLoop_cons]
    simp [ih (i + 2)]

theorem multiLoop_results (env : Env) (st : String) :
    ∀ (years : List Int) (i : Nat),
      (multiLoop env st years i).results =
        years.filterMap (fun y =>
          (seasonSuccessFile env st y).map (fun fn => (y, fn))) := by
  intro years
  induction years with
  | nil => intro i; rfl
  | cons y ys ih =>
    intro i
    rw [multiLoop_cons]
    simp only [List.filterMap_cons]
    cases hf : seasonSuccessFile env st y with
    | none => simp [resEntry, hf, ih (i + 2)]
    | some fn => simp [resEntry, hf, ih (i + 2)]

theorem multiLoop_outcomes (env : Env) (st : String) :
    ∀ (years : List Int) (i : Nat),
      (multiLoop env st years i).outcomes.map Prod.fst = years := by
  intro years
  induction years with
  | nil => intro i; rfl
  | cons y ys ih =>
    intro i
    rw [multiLoop_cons]
    simp [ih (i + 2)]

theorem multiLoop_saveFile_mem (env : Env) (st : String) :
    ∀ (years : List Int) (i : Nat) (y : Int) (fn : String),
      y ∈ years → seasonSuccessFile env st y = some fn →
      Event.saveFile fn ∈ (multiLoop env st years i).trace := by
  intro years
  induction years with
  | nil => intro i y fn hy; cases hy
  | cons z zs ih =>
    intro i y fn hy hf
    rw [multiLoop_cons]
    rcases List.mem_cons.mp hy with rfl | hmem
    · rw [hf]
      simp [saveEvents]
    · have := ih (i + 2) y fn hmem hf
      simp [this]

/-- C1: in multi-season mode every season of the range is fetched in
order, every season gets a recorded per-season outcome (failures marked as
unsuccessful), and any season that succeeds, wherever it sits relative to
failing seasons, has its file in the results and a write event in the
trace. A failure of one season never prevents the later seasons from being
fetched and persisted. -/
theorem C1_loop_continues (env : Env) (s e : Int) (st : String) :
    fetchedYears (scrape_multiple_seasons env s e st).trace = pyRange s e ∧
    (scrape_multiple_seasons env s e st).outcomes.map Prod.fst = pyRange s e ∧
    (∀ y ∈ pyRange s e, ∀ fn, seasonSuccessFile env st y = some fn →
      (y, fn) ∈ (scrape_multiple_seasons env s e st).results ∧
      Event.saveFile fn ∈ (scrape_multiple_seasons env s e st).trace) := by
  refine ⟨multiLoop_fetchedYears env st _ 0, multiLoop_outcomes env st _ 0, ?_⟩
  intro y hy fn hf
  constructor
  · rw [scrape_multiple_seasons, multiLoop_results env st _ 0]
    exact List.mem_filterMap.mpr ⟨y, hy, by rw [hf]; rfl⟩
  · exact multiLoop_saveFile_mem env st _ 0 y fn hy hf

/-- A page with one good two-cell body row, matching a two-name header. -/
def okPage : FetchResult :=
  FetchResult.httpResponse 200 ⟨some ⟨some ["Rk", "Player"], [⟨false, ["1", "LeBron James"]⟩]⟩⟩

/-- A three-season environment in which exactly the middle season 2022
fails with a transport error and every write succeeds. -/
def env3 : Env :=
  ⟨fun _ => 0, fun y _ => if y = 2022 then FetchResult.transportError "conn reset" else okPage,
   fun _ _ => true⟩

theorem C1_loop_continues_witness :
    (2023, "nba_player_stats_2022_23_per_game.csv") ∈
      (scrape_multiple_seasons env3 2021 2023 "per_game").results ∧
    Event.saveFile "nba_player_stats_2022_23_per_game.csv" ∈
      (scrape_multiple_seasons env3 2021 2023 "per_game").trace :=
  (C1_loop_continues env3 2021 2023 "per_game").2.2 2023 (by decide)
    "nba_player_stats_2022_23_per_game.csv" (by decide)

/-- C6 counterexample: in the three-season run where season 2022 fails
with a transport error, the returned mapping has no entry at all for 2022,
neither a file nor a failure record, although 2022 is in the requested
range; so the mapping does not contain an entry for every season. -/
theorem C6_missing_entry_counterexample :
    (2022 : Int) ∈ pyRange 2021 2023 ∧
    List.lookup (2022 : Int) (scrape_multiple_seasons env3 2021 2023 "per_game").results
      = none ∧
    (scrape_multiple_seasons env3 2021 2023 "per_game").results.map Prod.fst
      = [2021, 2023] := by
  exact ⟨by decide, by decide, by decide⟩

/-- C6 amended: the run-result mapping contains entries exactly for the
seasons whose scrape and save both succeed, each mapped to its persisted
file name, in season order; failed seasons are absent from the mapping
(their failure is only reported on the console). In the three-season run
with one transport failure the mapping has exactly the other two seasons
with their output files. -/
theorem C6_results_exactly_successes (env : Env) (s e : Int) (st : String) :
    (scrape_multiple_seasons env s e st).results =
      (pyRange s e).filterMap (fun y =>
        (seasonSuccessFile env st y).map (fun fn => (y, fn))) :=
  multiLoop_results env st _ 0

theorem countSD_saveEvents (f : Option String) :
    (saveEvents f).countP isSeasonDelayB = 0 := by
  cases f <;> rfl

theorem multiLoop_seasonDelay_count (env : Env) (st : String) :
    ∀ (years : List Int) (i : Nat),
      (multiLoop env st years i).trace.countP isSeasonDelayB = years.length := by
  intro years
  induction years with
  | nil => intro i; rfl
  | cons y ys ih =>
    intro i
    rw [multiLoop_cons]
    simp [List.countP_cons, List.countP_append, countSD_saveEvents, isSeasonDelayB,
      ih (i + 2)]

theorem multiLoop_trace_getLast (env : Env) (st : String) :
    ∀ (years : List Int) (i : Nat), years ≠ [] →
      ∃ d, (multiLoop env st years i).trace.getLast? = some (Event.seasonDelay d) := by
  intro years
  induction years with
  | nil => intro i h; cases h rfl
  | cons y ys ih =>
    intro i _
    rw [multiLoop_cons]
    simp only []
    rw [show Event.preFetchDelay (1 + 2 * env.draws i) :: Event.fetchCall y st ::
          (saveEvents (seasonSuccessFile env st y) ++
            Event.seasonDelay (3 + 2 * env.draws (i + 1)) ::
              (multiLoop env st ys (i + 2)).trace) =
        (Event.preFetchDelay (1 + 2 * env.draws i) :: Event.fetchCall y st ::
          saveEvents (seasonSuccessFile env st y)) ++
            Event.seasonDelay (3 + 2 * env.draws (i + 1)) ::
              (multiLoop env st ys (i + 2)).trace by simp]
    rw [List.getLast?_append_cons]
    by_cases hys : ys = []
    · subst hys
      exact ⟨3 + 2 * env.draws (i + 1), rfl⟩
    · obtain ⟨d, hd⟩ := ih (i + 2) hys
      refine ⟨d, ?_⟩
      obtain ⟨z, zs, rfl⟩ := List.exists_cons_of_ne_nil hys
      have hne : (multiLoop env st (z :: zs) (i + 2)).trace ≠ [] := by
        rw [multiLoop_cons]
        exact List.cons_ne_nil _ _
      rw [show Event.seasonDelay (3 + 2 * env.draws (i + 1)) ::
            (multiLoop env st (z :: zs) (i + 2)).trace =
          [Event.seasonDelay (3 + 2 * env.draws (i + 1))] ++
            (multiLoop env st (z :: zs) (i + 2)).trace from rfl]
      rw [List.getLast?_append_of_ne_nil _ hne]
      exact hd

/-- C10: the 3 to 5 time-unit season delay is executed after every season
iteration, including after the final one and independently of success or
failure: a run over N seasons performs exactly N season delays, and a
non-empty run ends with a season delay event. -/
theorem C10_delay_after_every_season (env : Env) (s e : Int) (st : String) :
    (scrape_multiple_seasons env s e st).trace.countP isSeasonDelayB
      = (pyRange s e).length ∧
    (s ≤ e → ∃ d, (scrape_multiple_seasons env s e st).trace.getLast?
      = some (Event.seasonDelay d)) := by
  constructor
  · exact multiLoop_seasonDelay_count env st _ 0
  · intro hse
    refine multiLoop_trace_getLast env st _ 0 ?_
    intro hnil
    have hlen : (pyRange s e).length = (e + 1 - s).toNat := by
      rw [pyRange, List.length_map, List.length_range]
    rw [hnil] at hlen
    simp only [List.length_nil] at hlen
    omega

theorem C10_delay_after_every_season_witness :
    (scrape_multiple_seasons env3 2021 2023 "per_game").trace.countP isSeasonDelayB
      = (pyRange 2021 2023).length ∧
    ∃ d, (scrape_multiple_seasons env3 2021 2023 "per_game").trace.getLast?
      = some (Event.seasonDelay d) :=
  ⟨(C10_delay_after_every_season env3 2021 2023 "per_game").1,
   (C10_delay_after_every_season env3 2021 2023 "per_game").2 (by decide)⟩

theorem multiLoop_trace_cons (env : Env) (st : String) (y : Int) (ys : List Int)
    (i : Nat) :
    (multiLoop env st (y :: ys) i).trace =
      Event.preFetchDelay (1 + 2 * env.draws i) :: Event.fetchCall y st ::
        (saveEvents (seasonSuccessFile env st y) ++
          Event.seasonDelay (3 + 2 * env.draws (i + 1)) ::
            (multiLoop env st ys (i + 2)).trace) := rfl

theorem mainRun_invalid_cases (env : Env) (a : Args)
    (h : (a.multi = true ∧ ∃ s e, a.start_year = some s ∧ a.end_year = some e ∧
            (s < 1950 ∨ 2025 < e ∨ e < s)) ∨
         (a.multi = true ∧ (truthy a.start_year = false ∨ truthy a.end_year = false)) ∨
         (a.multi = false ∧ (a.season_end_year < 1950 ∨ 2025 < a.season_end_year))) :
    (mainRun env a).1 = [] ∧
    ∃ msg, (mainRun env a).2 = PyResult.ok (MainResult.invalidArgsMsg msg) := by
  rcases h with ⟨hm, s, e, hs, he, hr⟩ | ⟨hm, ht⟩ | ⟨hm, hr⟩
  · by_cases ht : truthy a.start_year = true ∧ truthy a.end_year = true
    · have hcond : a.start_year.getD 0 < 1950 ∨ 2025 < a.end_year.getD 0 ∨
          a.end_year.getD 0 < a.start_year.getD 0 := by
        rw [hs, he]
        exact hr
      rw [mainRun, if_pos hm, if_pos ht, if_pos hcond]
      exact ⟨rfl, _, rfl⟩
    · rw [mainRun, if_pos hm, if_neg ht]
      exact ⟨rfl, _, rfl⟩
  · have hne : ¬ (truthy a.start_year = true ∧ truthy a.end_year = true) := by
      rcases ht with h1 | h1 <;> intro hc
      · rw [h1] at hc; cases hc.1
      · rw [h1] at hc; cases hc.2
    rw [mainRun, if_pos hm, if_neg hne]
    exact ⟨rfl, _, rfl⟩
  · have hnm : ¬ (a.multi = true) := by rw [hm]; simp
    rw [mainRun, if_neg hnm, if_pos hr]
    exact ⟨rfl, _, rfl⟩

/-- C2: a multi-season request whose given start and end violate the range
check (start below 1950, end above 2025, or start above end), and a
single-season request whose year is outside 1950 to 2025, are rejected by
the validation in main before any network activity: the trace contains
zero fetch calls and zero file writes, and the run reports only the
validation error message. -/
theorem C2_validation_before_fetch (env : Env) (a : Args)
    (h : (a.multi = true ∧ ∃ s e, a.start_year = some s ∧ a.end_year = some e ∧
            (s < 1950 ∨ 2025 < e ∨ e < s)) ∨
         (a.multi = false ∧ (a.season_end_year < 1950 ∨ 2025 < a.season_end_year))) :
    fetchCount (mainRun env a).1 = 0 ∧ saveCount (mainRun env a).1 = 0 ∧
    ∃ msg, (mainRun env a).2 = PyResult.ok (MainResult.invalidArgsMsg msg) := by
  obtain ⟨htr, msg, hres⟩ := mainRun_invalid_cases env a
    (h.elim Or.inl (fun hy => Or.inr (Or.inr hy)))
  rw [htr]
  exact ⟨rfl, rfl, msg, hres⟩

/-- A concrete offline environment: every fetch is a transport error and
every write fails; used only to instantiate theorems with hypotheses. -/
def cEnv0 : Env :=
  ⟨fun _ => 0, fun _ _ => FetchResult.transportError "offline", fun _ _ => false⟩

/-- Multi-season arguments with the invalid range 2026 to 2030. -/
def badRangeArgs : Args := ⟨true, some 2026, some 2030, 2024, "per_game"⟩

theorem C2_validation_before_fetch_witness :
    fetchCount (mainRun cEnv0 badRangeArgs).1 = 0 ∧
    saveCount (mainRun cEnv0 badRangeArgs).1 = 0 ∧
    ∃ msg, (mainRun cEnv0 badRangeArgs).2
      = PyResult.ok (MainResult.invalidArgsMsg msg) :=
  C2_validation_before_fetch cEnv0 badRangeArgs
    (Or.inl ⟨rfl, 2026, 2030, rfl, rfl, Or.inr (Or.inl (by decide))⟩)

/-- C8 counterexample: on the invalid range 2026 to 2030 the program does
not terminate with a non-zero exit status: main prints the descriptive
message and returns normally, so the process exit status is zero (no
sys.exit call and no uncaught exception); the no-network part does hold. -/
theorem C8_exit_status_zero_counterexample :
    exitStatus (mainRun cEnv0 badRangeArgs).2 = 0 ∧
    fetchCount (mainRun cEnv0 badRangeArgs).1 = 0 ∧
    ∃ msg, (mainRun cEnv0 badRangeArgs).2
      = PyResult.ok (MainResult.invalidArgsMsg msg) := by
  exact ⟨rfl, rfl, _, rfl⟩

/-- C8 amended: for every invocation with an invalid range or an invalid
mode combination (multi without a truthy start and end), the program
prints a descriptive message and terminates normally with exit status
zero, and no network activity is attempted. -/
theorem C8_graceful_reject_exit_zero (env : Env) (a : Args)
    (h : (a.multi = true ∧ ∃ s e, a.start_year = some s ∧ a.end_year = some e ∧
            (s < 1950 ∨ 2025 < e ∨ e < s)) ∨
         (a.multi = true ∧ (truthy a.start_year = false ∨ truthy a.end_year = false)) ∨
         (a.multi = false ∧ (a.season_end_year < 1950 ∨ 2025 < a.season_end_year))) :
    exitStatus (mainRun env a).2 = 0 ∧
    fetchCount (mainRun env a).1 = 0 ∧
    ∃ msg, (mainRun env a).2 = PyResult.ok (MainResult.invalidArgsMsg msg) := by
  obtain ⟨htr, msg, hres⟩ := mainRun_invalid_cases env a h
  rw [htr, hres]
  exact ⟨rfl, rfl, msg, rfl⟩

/-- Multi-season arguments missing the end year. -/
def missingEndArgs : Args := ⟨true, some 2021, none, 2024, "per_game"⟩

theorem C8_graceful_reject_exit_zero_witness :
    exitStatus (mainRun cEnv0 missingEndArgs).2 = 0 ∧
    fetchCount (mainRun cEnv0 missingEndArgs).1 = 0 ∧
    ∃ msg, (mainRun cEnv0 missingEndArgs).2
      = PyResult.ok (MainResult.invalidArgsMsg msg) :=
  C8_graceful_reject_exit_zero cEnv0 missingEndArgs
    (Or.inr (Or.inl ⟨rfl, Or.inr rfl⟩))

theorem fetchTimesAux_saveEvents (f : Option String) (l : List Event) (t : ℚ) :
    fetchTimesAux (saveEvents f ++ l) t = fetchTimesAux l t := by
  cases f <;> rfl

theorem delayWithin_saveEvents (f : Option String) (ev : Event)
    (h : ev ∈ saveEvents f) : delayWithin ev := by
  cases f with
  | none => cases h
  | some fn =>
    rcases List.mem_singleton.mp h with rfl
    trivial

theorem multiLoop_delayWithin (env : Env) (st : String)
    (h : ∀ i, 0 ≤ env.draws i ∧ env.draws i < 1) :
    ∀ (years : List Int) (i : Nat) (ev : Event),
      ev ∈ (multiLoop env st years i).trace → delayWithin ev := by
  intro years
  induction years with
  | nil => intro i ev hev; cases hev
  | cons y ys ih =>
    intro i ev hev
    rw [multiLoop_trace_cons] at hev
    simp only [List.mem_cons, List.mem_append] at hev
    rcases hev with rfl | rfl | hs | rfl | hev
    · have h0 := h i
      exact ⟨by linarith [h0.1], by linarith [h0.2]⟩
    · trivial
    · exact delayWithin_saveEvents _ ev hs
    · have h1 := h (i + 1)
      exact ⟨by linarith [h1.1], by linarith [h1.2]⟩
    · exact ih (i + 2) ev hev

theorem spacedBy_cons_of (g a : ℚ) (l : List ℚ) (hl : spacedBy g l)
    (hb : ∀ x ∈ l, a + g ≤ x) : spacedBy g (a :: l) := by
  cases l with
  | nil => trivial
  | cons b rest => exact ⟨hb b (List.mem_cons_self b rest), hl⟩

theorem multiLoop_times_spaced (env : Env) (st : String)
    (h : ∀ i, 0 ≤ env.draws i ∧ env.draws i < 1) :
    ∀ (years : List Int) (i : Nat) (t : ℚ),
      spacedBy 1 (fetchTimesAux (multiLoop env st years i).trace t) ∧
      ∀ x ∈ fetchTimesAux (multiLoop env st years i).trace t, t + 1 ≤ x := by
  intro years
  induction years with
  | nil =>
    intro i t
    exact ⟨trivial, fun x hx => absurd hx (List.not_mem_nil x)⟩
  | cons y ys ih =>
    intro i t
    have key : fetchTimesAux (multiLoop env st (y :: ys) i).trace t =
        (t + (1 + 2 * env.draws i)) ::
          fetchTimesAux (multiLoop env st ys (i + 2)).trace
            (t + (1 + 2 * env.draws i) + (3 + 2 * env.draws (i + 1))) := by
      rw [multiLoop_trace_cons]
      rw [fetchTimesAux, fetchTimesAux, fetchTimesAux_saveEvents, fetchTimesAux]
    rw [key]
    obtain ⟨ihS, ihB⟩ :=
      ih (i + 2) (t + (1 + 2 * env.draws i) + (3 + 2 * env.draws (i + 1)))
    have h0 := h i
    have h1 := h (i + 1)
    constructor
    · refine spacedBy_cons_of 1 _ _ ihS ?_
      intro x hx
      have hbx := ihB x hx
      linarith [h1.1]
    · intro x hx
      rcases List.mem_cons.mp hx with rfl | hx2
      · linarith [h0.1]
      · have hbx := ihB x hx2
        linarith [h0.1, h1.1]

theorem singleSeasonRun_events (env : Env) (y : Int) (st : String) :
    (singleSeasonRun env y st).1 =
      [Event.preFetchDelay (1 + 2 * env.draws 0), Event.fetchCall y st] ∨
    ∃ fn, (singleSeasonRun env y st).1 =
      [Event.preFetchDelay (1 + 2 * env.draws 0), Event.fetchCall y st,
        Event.saveFile fn] := by
  cases h1 : scrape_nba_stats (env.fetch y st) with
  | none => left; simp [singleSeasonRun, h1]
  | some df =>
    cases h2 : save_to_csv env df y st with
    | none => left; simp [singleSeasonRun, h1, h2]
    | some fn => right; exact ⟨fn, by simp [singleSeasonRun, h1, h2]⟩

/-- C7: under the random.random contract (every draw in the interval from
0 inclusive to 1 exclusive), every pre-fetch delay of a run lies in the
1 to 3 range and every season delay lies in the 3 to 5 range, in both
multi-season and single-season mode; moreover the fetch timestamps of a
multi-season run, on a clock advanced by every delay, are always at least
the minimum pre-fetch delay of 1 apart. -/
theorem C7_rate_limit_bounds (env : Env) (s e y : Int) (st : String)
    (h : ∀ i, 0 ≤ env.draws i ∧ env.draws i < 1) :
    (∀ ev ∈ (scrape_multiple_seasons env s e st).trace, delayWithin ev) ∧
    spacedBy 1 (fetchTimes (scrape_multiple_seasons env s e st).trace) ∧
    (∀ ev ∈ (singleSeasonRun env y st).1, delayWithin ev) := by
  refine ⟨fun ev hev => multiLoop_delayWithin env st h _ 0 ev hev,
    (multiLoop_times_spaced env st h _ 0 0).1, ?_⟩
  intro ev hev
  have h0 := h 0
  rcases singleSeasonRun_events env y st with hl | ⟨fn, hl⟩ <;> rw [hl] at hev
  · rcases List.mem_cons.mp hev with rfl | hev2
    · exact ⟨by linarith [h0.1], by linarith [h0.2]⟩
    · rcases List.mem_singleton.mp hev2 with rfl
      trivial
  · rcases List.mem_cons.mp hev with rfl | hev2
    · exact ⟨by linarith [h0.1], by linarith [h0.2]⟩
    · rcases List.mem_cons.mp hev2 with rfl | hev3
      · trivial
      · rcases List.mem_singleton.mp hev3 with rfl
        trivial

/-- An environment whose every random draw is one half. -/
def envHalf : Env :=
  ⟨fun _ => 1 / 2, fun _ _ => FetchResult.transportError "offline", fun _ _ => false⟩

theorem C7_rate_limit_bounds_witness :
    (∀ ev ∈ (scrape_multiple_seasons envHalf 2021 2022 "per_game").trace,
      delayWithin ev) ∧
    spacedBy 1 (fetchTimes (scrape_multiple_seasons envHalf 2021 2022 "per_game").trace) ∧
    (∀ ev ∈ (singleSeasonRun envHalf 2024 "per_game").1, delayWithin ev) :=
  C7_rate_limit_bounds envHalf 2021 2022 2024 "per_game"
    (fun _ => ⟨by show (0 : ℚ) ≤ 1 / 2; norm_num, by show (1 : ℚ) / 2 < 1; norm_num⟩)

end NbaScraper
